import Mathlib

/-!
Shallow embedding of the Region & Clip engine of AudioCutter Pro
(the WaveformEditor component plus types.ts).  Times and sample values are
modelled as rationals.  A JS Float32Array read out of range yields
undefined, which becomes NaN when stored into another Float32Array; that is
modelled explicitly by a nan sample value.  The wavesurfer regions
collaborator is modelled, per the interface contract of the spec, as the
ordered list of regions it holds (creation order): the engine issues
addRegion and remove commands and the collaborator is a projection.
`Math.floor` on nonnegative times is modelled by `Rat.floor`, and the
source field `end` is named `stop` here because `end` is a Lean keyword.
-/

attribute [local semireducible] Rat.mul Rat.add Rat.sub Rat.inv

/-- One cell of a Float32Array: either a numeric sample or NaN. -/
inductive Sample where
  | val (x : ℚ)
  | nan
  deriving DecidableEq

/-- Model of the JS read `data[i]` on a Float32Array: an out-of-range index
(negative or beyond the length) yields undefined, stored back as NaN. -/
def readSample (data : List Sample) (i : ℤ) : Sample :=
  if 0 ≤ i then data.getD i.toNat Sample.nan else Sample.nan

/-- Model of a decoded AudioBuffer: sample rate, frame count and the
per-channel sample data (channel count is the list length). -/
structure AudioBuffer where
  sampleRate : ℕ
  length : ℕ
  channels : List (List Sample)
  deriving DecidableEq

/-- A well-formed buffer: every channel holds exactly `length` frames. -/
def AudioBuffer.wf (b : AudioBuffer) : Prop :=
  ∀ d ∈ b.channels, d.length = b.length

instance (b : AudioBuffer) : Decidable b.wf :=
  inferInstanceAs (Decidable (∀ d ∈ b.channels, d.length = b.length))

/-- The inner copy loop of exportRegion:
for j below frameCount, newChannelData[j] = channelData[startFrame + j]. -/
def sliceChannel (data : List Sample) (startFrame : ℤ) (frameCount : ℕ) : List Sample :=
  (List.range frameCount).map (fun (j : ℕ) => readSample data (startFrame + (j : ℤ)))

/-- The slicing core of exportRegion: frame indices via
Math.floor(time * sampleRate), early return (none) when frameCount is not
positive, otherwise a fresh buffer with the source's channel count and
sample rate, each channel copied by sliceChannel. -/
def sliceBuffer (buffer : AudioBuffer) (a b : ℚ) : Option AudioBuffer :=
  let sampleRate := buffer.sampleRate
  let startFrame : ℤ := Rat.floor (a * (sampleRate : ℚ))
  let endFrame : ℤ := Rat.floor (b * (sampleRate : ℚ))
  let frameCount : ℤ := endFrame - startFrame
  if frameCount ≤ 0 then none
  else some
    { sampleRate := sampleRate
    , length := frameCount.toNat
    , channels := buffer.channels.map (fun data => sliceChannel data startFrame frameCount.toNat) }

theorem sliceChannel_eq_take_drop (data : List Sample) (sf : ℤ) (n : ℕ)
    (h0 : 0 ≤ sf) (hn : sf.toNat + n ≤ data.length) :
    sliceChannel data sf n = (data.drop sf.toNat).take n := by
  apply List.ext_getElem
  · rw [sliceChannel, List.length_map, List.length_range, List.length_take,
      List.length_drop]
    omega
  · intro i h1 h2
    have hi : i < n := by
      rw [sliceChannel, List.length_map, List.length_range] at h1
      exact h1
    simp only [sliceChannel, List.getElem_map, List.getElem_range]
    rw [List.getElem_take, List.getElem_drop]
    have hread : readSample data (sf + (i : ℤ)) = data.getD (sf.toNat + i) Sample.nan := by
      rw [readSample, if_pos (by omega)]
      congr 1
      omega
    rw [hread, List.getD_eq_getElem]

/-- Claim C4: for an in-range time pair, the slicer converts times to frame
indices by floor(time * sampleRate) and copies, per channel, exactly
frameCount = endFrame - startFrame contiguous samples starting at
startFrame into a new buffer with the source's sample rate and channel
count, sample-for-sample identical to the source. -/
theorem slice_copies_exact_frames (src : AudioBuffer) (a b : ℚ)
    (hwf : src.wf)
    (h0 : 0 ≤ Rat.floor (a * (src.sampleRate : ℚ)))
    (hlt : Rat.floor (a * (src.sampleRate : ℚ)) < Rat.floor (b * (src.sampleRate : ℚ)))
    (hub : Rat.floor (b * (src.sampleRate : ℚ)) ≤ (src.length : ℤ)) :
    sliceBuffer src a b = some
      { sampleRate := src.sampleRate
      , length := (Rat.floor (b * (src.sampleRate : ℚ))
          - Rat.floor (a * (src.sampleRate : ℚ))).toNat
      , channels := src.channels.map (fun data =>
          (data.drop (Rat.floor (a * (src.sampleRate : ℚ))).toNat).take
            (Rat.floor (b * (src.sampleRate : ℚ))
              - Rat.floor (a * (src.sampleRate : ℚ))).toNat) } := by
  have hmap : src.channels.map (fun data =>
        sliceChannel data (Rat.floor (a * (src.sampleRate : ℚ)))
          (Rat.floor (b * (src.sampleRate : ℚ))
            - Rat.floor (a * (src.sampleRate : ℚ))).toNat)
      = src.channels.map (fun data =>
        (data.drop (Rat.floor (a * (src.sampleRate : ℚ))).toNat).take
          (Rat.floor (b * (src.sampleRate : ℚ))
            - Rat.floor (a * (src.sampleRate : ℚ))).toNat) := by
    apply List.map_congr_left
    intro d hd
    refine sliceChannel_eq_take_drop d _ _ h0 ?_
    have := hwf d hd
    omega
  simp only [sliceBuffer]
  rw [if_neg (by omega), hmap]

/-- Concrete 2 Hz, 4-frame, single-channel source used by witnesses. -/
def wsrc : AudioBuffer :=
  { sampleRate := 2
  , length := 4
  , channels := [[Sample.val 0, Sample.val (1/4), Sample.val (1/2), Sample.val (3/4)]] }

/-- Witness for slice_copies_exact_frames: a concrete in-range slice. -/
theorem slice_copies_exact_frames_witness :
    (wsrc.wf
      ∧ 0 ≤ Rat.floor ((1/2 : ℚ) * (wsrc.sampleRate : ℚ))
      ∧ Rat.floor ((1/2 : ℚ) * (wsrc.sampleRate : ℚ))
          < Rat.floor ((3/2 : ℚ) * (wsrc.sampleRate : ℚ))
      ∧ Rat.floor ((3/2 : ℚ) * (wsrc.sampleRate : ℚ)) ≤ (wsrc.length : ℤ))
    ∧ sliceBuffer wsrc (1/2) (3/2) = some
      { sampleRate := wsrc.sampleRate
      , length := (Rat.floor ((3/2 : ℚ) * (wsrc.sampleRate : ℚ))
          - Rat.floor ((1/2 : ℚ) * (wsrc.sampleRate : ℚ))).toNat
      , channels := wsrc.channels.map (fun data =>
          (data.drop (Rat.floor ((1/2 : ℚ) * (wsrc.sampleRate : ℚ))).toNat).take
            (Rat.floor ((3/2 : ℚ) * (wsrc.sampleRate : ℚ))
              - Rat.floor ((1/2 : ℚ) * (wsrc.sampleRate : ℚ))).toNat) } :=
  ⟨⟨by decide, by decide, by decide, by decide⟩,
    slice_copies_exact_frames wsrc (1/2) (3/2) (by decide) (by decide) (by decide) (by decide)⟩

/-- Single-channel, 1 Hz, 4-frame source for the end-overrun evaluation. -/
def overrunSrc : AudioBuffer :=
  { sampleRate := 1
  , length := 4
  , channels := [[Sample.val 0, Sample.val (1/4), Sample.val (1/2), Sample.val (3/4)]] }

/-- Claim C1, the code evaluated at the failing input: a region ending at
6 s over a 4 s source.  exportRegion does not clamp the end frame to the
source length: it produces all 5 requested frames, of which the last two
are reads past the source and hence NaN, instead of stopping at the 3
in-range frames as the specification requires. -/
theorem exportRegion_overrun_eval :
    sliceBuffer overrunSrc 1 6 = some
      { sampleRate := 1
      , length := 5
      , channels := [[Sample.val (1/4), Sample.val (1/2), Sample.val (3/4),
          Sample.nan, Sample.nan]] } := by
  decide

/-- A region held by the wavesurfer regions collaborator.  The source field
named end is called stop here (end is a Lean keyword). -/
structure Region where
  id : String
  start : ℚ
  stop : ℚ
  color : String
  drag : Bool
  resize : Bool
  content : String
  deriving DecidableEq

/-- RegionData from types.ts: the shape stored in the userRegions state. -/
structure RegionData where
  id : String
  start : ℚ
  stop : ℚ
  color : String
  deriving DecidableEq

/-- One transcript segment as parsed from the transcription response. -/
structure TranscriptSegment where
  start : ℚ
  stop : ℚ
  text : String
  deriving DecidableEq

/-- The id namespace tag of transcript regions. -/
def transcriptTag : String := "transcript-"

/-- The check id.startsWith of the source, with JS startsWith modelled as
the character-list prefix test. -/
def isTranscriptId (id : String) : Bool :=
  transcriptTag.data.isPrefixOf id.data

/-- The map step of updateUserRegionsList: keep id, start, end and color. -/
def toRegionData (r : Region) : RegionData :=
  { id := r.id, start := r.start, stop := r.stop, color := r.color }

/-- The comparator (a, b) => a.start - b.start of the source as an order
relation: a sorts no later than b. -/
def startLE (a b : Region) : Prop := a.start ≤ b.start

instance : DecidableRel startLE :=
  fun a b => inferInstanceAs (Decidable (a.start ≤ b.start))

instance : IsTotal Region startLE :=
  ⟨fun a b => le_total a.start b.start⟩

instance : IsTrans Region startLE :=
  ⟨fun _ _ _ hab hbc => le_trans hab hbc⟩

/-- updateUserRegionsList of the source: drop transcript regions, sort by
start, map to RegionData.  JS Array.prototype.sort is stable (ES2019), so
any stable sort by the same comparator computes the same list; insertion
sort is that stable sort. -/
def updateUserRegionsList (regions : List Region) : List RegionData :=
  (List.insertionSort startLE (regions.filter (fun r => !(isTranscriptId r.id)))).map
    toRegionData

theorem filter_orderedInsert_of_mem (s : ℚ) (x : Region) (hx : x.start = s) :
    ∀ l : List Region,
      (List.orderedInsert startLE x l).filter (fun r => decide (r.start = s))
        = x :: l.filter (fun r => decide (r.start = s))
  | [] => by simp [hx]
  | y :: ys => by
    by_cases hxy : startLE x y
    · rw [List.orderedInsert, if_pos hxy]
      simp [List.filter_cons, hx]
    · have hy : ¬ y.start = s := by
        rw [startLE] at hxy
        intro h
        exact hxy (by rw [h, ← hx])
      rw [List.orderedInsert, if_neg hxy]
      simp [List.filter_cons, hy, filter_orderedInsert_of_mem s x hx ys]

theorem filter_orderedInsert_of_ne (s : ℚ) (x : Region) (hx : ¬ x.start = s) :
    ∀ l : List Region,
      (List.orderedInsert startLE x l).filter (fun r => decide (r.start = s))
        = l.filter (fun r => decide (r.start = s))
  | [] => by simp [hx]
  | y :: ys => by
    by_cases hxy : startLE x y
    · rw [List.orderedInsert, if_pos hxy]
      simp [List.filter_cons, hx]
    · rw [List.orderedInsert, if_neg hxy]
      simp [List.filter_cons, hx, filter_orderedInsert_of_ne s x hx ys]

theorem filter_insertionSort (s : ℚ) :
    ∀ l : List Region,
      (List.insertionSort startLE l).filter (fun r => decide (r.start = s))
        = l.filter (fun r => decide (r.start = s))
  | [] => rfl
  | x :: xs => by
    rw [List.insertionSort]
    by_cases hx : x.start = s
    · rw [filter_orderedInsert_of_mem s x hx, filter_insertionSort s xs]
      simp [List.filter_cons, hx]
    · rw [filter_orderedInsert_of_ne s x hx, filter_insertionSort s xs]
      simp [List.filter_cons, hx]

/-- Claim C3: updateUserRegionsList (the body of listUserRegions) always
returns the user regions sorted ascending by start time, and regions with
equal start times keep their relative order from the collaborator's list,
which is creation order - the stable, reproducible clip numbering. -/
theorem listUserRegions_sorted_and_stable (regions : List Region) (s : ℚ) :
    List.Pairwise (fun x y : RegionData => x.start ≤ y.start)
      (updateUserRegionsList regions)
    ∧ (updateUserRegionsList regions).filter (fun rd => decide (rd.start = s))
      = ((regions.filter (fun r => !(isTranscriptId r.id))).filter
          (fun r => decide (r.start = s))).map toRegionData := by
  constructor
  · exact List.Pairwise.map toRegionData (fun a b h => h)
      (List.sorted_insertionSort startLE (regions.filter (fun r => !(isTranscriptId r.id))))
  · rw [updateUserRegionsList, List.filter_map]
    have hp : ((fun rd : RegionData => decide (rd.start = s)) ∘ toRegionData)
        = (fun r : Region => decide (r.start = s)) := by
      funext r
      rfl
    rw [hp, filter_insertionSort]

/-- The prefix test on character lists is true on any extension of the
prefix itself. -/
theorem isPrefixOf_append_self : ∀ (l t : List Char), l.isPrefixOf (l ++ t) = true
  | [], _ => by simp [List.isPrefixOf]
  | c :: cs, t => by
    simp [List.isPrefixOf, isPrefixOf_append_self cs t]

/-- Every id built from the transcript tag is in the transcript namespace. -/
theorem isTranscriptId_tagged (s : String) : isTranscriptId (transcriptTag ++ s) = true := by
  rw [isTranscriptId, String.data_append]
  exact isPrefixOf_append_self _ _

/-- The component state the claims touch: the collaborator's region list
(creation order), the userRegions React state, the active region id,
playback and decode state, and the transcription state.  callsIssued
counts generateContent calls the session has started. -/
structure EditorState where
  regions : List Region
  userRegions : List RegionData
  activeRegionId : Option String
  currentTime : ℚ
  duration : ℚ
  isReady : Bool
  isTranscribing : Bool
  transcriptSegments : List TranscriptSegment
  showTranscriptOnWave : Bool
  callsIssued : ℕ
  deriving DecidableEq

/-- The fixed color of user regions in the source. -/
def userRegionColor : String := "rgba(99, 102, 241, 0.3)"

/-- addRegion of the source composed with the region-created handler: the
collaborator appends a region from currentTime to currentTime + 5 with
drag and resize on (freshId is the id the collaborator mints); the
region-created event then ignores transcript-namespace ids, else sets the
active region and refreshes the user-region list. -/
def addRegion (st : EditorState) (freshId : String) : EditorState :=
  let newRegion : Region :=
    { id := freshId
    , start := st.currentTime
    , stop := st.currentTime + 5
    , color := userRegionColor
    , drag := true
    , resize := true
    , content := "片段" }
  let regions := st.regions ++ [newRegion]
  if isTranscriptId freshId then { st with regions := regions }
  else
    { st with
        regions := regions
      , activeRegionId := some freshId
      , userRegions := updateUserRegionsList regions }

/-- removeRegion of the source: find the first region with the id and
remove it (nothing happens when the id is absent), then recompute the
user-region list.  activeRegionId is not touched. -/
def removeRegion (st : EditorState) (id : String) : EditorState :=
  let regions := st.regions.eraseP (fun r => r.id == id)
  { st with regions := regions, userRegions := updateUserRegionsList regions }

/-- The transcript region built for segment seg at input index idx, as
addRegion receives it in renderTranscriptRegions. -/
def mkTranscriptRegion (dark : Bool) (idx : ℕ) (seg : TranscriptSegment) : Region :=
  { id := transcriptTag ++ toString idx
  , start := seg.start
  , stop := seg.stop
  , color := if dark then "rgba(255, 255, 255, 0.05)" else "rgba(0, 0, 0, 0.05)"
  , drag := false
  , resize := false
  , content := seg.text }

/-- The forEach over segments: one transcript region per segment, ids
numbered from idx upward in input order. -/
def transcriptRegionsFrom (dark : Bool) : ℕ → List TranscriptSegment → List Region
  | _, [] => []
  | idx, seg :: rest => mkTranscriptRegion dark idx seg :: transcriptRegionsFrom dark (idx + 1) rest

/-- renderTranscriptRegions of the source: remove every region in the
transcript namespace, return early when the overlay is hidden, otherwise
add one region per segment (the collaborator appends in call order). -/
def renderTranscriptRegions (dark : Bool) (st : EditorState)
    (segments : List TranscriptSegment) : EditorState :=
  let kept := st.regions.filter (fun r => !(isTranscriptId r.id))
  if !st.showTranscriptOnWave then { st with regions := kept }
  else { st with regions := kept ++ transcriptRegionsFrom dark 0 segments }

theorem transcriptRegionsFrom_all_tagged (dark : Bool) :
    ∀ (idx : ℕ) (segs : List TranscriptSegment),
      (transcriptRegionsFrom dark idx segs).filter (fun r => !(isTranscriptId r.id)) = []
  | _, [] => rfl
  | idx, seg :: rest => by
    rw [transcriptRegionsFrom, List.filter_cons]
    have : isTranscriptId (mkTranscriptRegion dark idx seg).id = true :=
      isTranscriptId_tagged (toString idx)
    simp [this, transcriptRegionsFrom_all_tagged dark (idx + 1) rest]

theorem transcriptRegionsFrom_length (dark : Bool) :
    ∀ (idx : ℕ) (segs : List TranscriptSegment),
      (transcriptRegionsFrom dark idx segs).length = segs.length
  | _, [] => rfl
  | idx, _ :: rest => by
    rw [transcriptRegionsFrom, List.length_cons,
      transcriptRegionsFrom_length dark (idx + 1) rest, List.length_cons]

/-- Claim C6: replacing the transcript overlay removes only regions in the
transcript namespace: the user regions (ids outside it) present before are
all still present afterwards, unchanged and in the same order, whichever
branch (overlay hidden or shown) runs. -/
theorem renderTranscript_preserves_user_regions (dark : Bool) (st : EditorState)
    (segs : List TranscriptSegment) :
    (renderTranscriptRegions dark st segs).regions.filter (fun r => !(isTranscriptId r.id))
      = st.regions.filter (fun r => !(isTranscriptId r.id)) := by
  rw [renderTranscriptRegions]
  by_cases h : st.showTranscriptOnWave
  · rw [if_neg (by simp [h])]
    show (st.regions.filter (fun r => !(isTranscriptId r.id))
        ++ transcriptRegionsFrom dark 0 segs).filter (fun r => !(isTranscriptId r.id))
      = st.regions.filter (fun r => !(isTranscriptId r.id))
    rw [List.filter_append, transcriptRegionsFrom_all_tagged dark 0 segs,
      List.filter_filter]
    simp
  · rw [if_pos (by simp [h])]
    show (st.regions.filter (fun r => !(isTranscriptId r.id))).filter
        (fun r => !(isTranscriptId r.id))
      = st.regions.filter (fun r => !(isTranscriptId r.id))
    rw [List.filter_filter]
    simp

/-- Claim C2 (amended): when the overlay is visible, replacing the
transcript regions inserts one region per input segment - segments with
end at or before start included, nothing is dropped - with id
transcript-index for the position in the input. -/
theorem renderTranscript_inserts_all_segments (dark : Bool) (st : EditorState)
    (segs : List TranscriptSegment) (hvis : st.showTranscriptOnWave = true) :
    (renderTranscriptRegions dark st segs).regions
      = st.regions.filter (fun r => !(isTranscriptId r.id))
        ++ transcriptRegionsFrom dark 0 segs
    ∧ (transcriptRegionsFrom dark 0 segs).length = segs.length := by
  constructor
  · simp only [renderTranscriptRegions]
    rw [if_neg (by simp [hvis])]
  · exact transcriptRegionsFrom_length dark 0 segs

/-- The initial component state: no regions, overlay visible, flags off. -/
def stEmpty : EditorState :=
  { regions := []
  , userRegions := []
  , activeRegionId := none
  , currentTime := 0
  , duration := 0
  , isReady := true
  , isTranscribing := false
  , transcriptSegments := []
  , showTranscriptOnWave := true
  , callsIssued := 0 }

/-- The input of the claim: an empty segment (1,1) then a proper one (2,3). -/
def segsPair : List TranscriptSegment :=
  [ { start := 1, stop := 1, text := "x" }
  , { start := 2, stop := 3, text := "y" } ]

/-- Witness for renderTranscript_inserts_all_segments at the claim's own
input over the initial state. -/
theorem renderTranscript_inserts_all_segments_witness :
    stEmpty.showTranscriptOnWave = true
    ∧ ((renderTranscriptRegions false stEmpty segsPair).regions
        = stEmpty.regions.filter (fun r => !(isTranscriptId r.id))
          ++ transcriptRegionsFrom false 0 segsPair
      ∧ (transcriptRegionsFrom false 0 segsPair).length = segsPair.length) :=
  ⟨by decide, renderTranscript_inserts_all_segments false stEmpty segsPair (by decide)⟩

/-- Claim C2 counterexample: on the claim's input, the segment with
end = start is not dropped.  Two transcript regions result, transcript-0
(the empty one) and transcript-1, not exactly one region transcript-1 as
claimed. -/
theorem renderTranscript_empty_segment_cex :
    ((renderTranscriptRegions false stEmpty segsPair).regions.map (fun r => r.id))
      = [ "transcript-0", "transcript-1"]
    ∧ ¬ ((renderTranscriptRegions false stEmpty segsPair).regions.length = 1) :=
  ⟨by decide, by decide⟩

/-- Claim C7 (amended): removeRegion never fails and surfaces no error: an
absent id is a silent no-op on the region list; a present id removes the
first region with that id; activeRegionId is never modified, even when the
removed region was the active one. -/
theorem removeRegion_silent_noop (st : EditorState) (id : String) :
    (removeRegion st id).activeRegionId = st.activeRegionId
    ∧ (removeRegion st id).regions = st.regions.eraseP (fun r => r.id == id)
    ∧ (st.regions.find? (fun r => r.id == id) = none →
        (removeRegion st id).regions = st.regions) := by
  refine ⟨rfl, rfl, fun h => ?_⟩
  show st.regions.eraseP (fun r => r.id == id) = st.regions
  exact List.eraseP_of_forall_not (List.find?_eq_none.mp h)

/-- A concrete user region used by the remove fixtures. -/
def regA : Region :=
  { id := "a"
  , start := 3
  , stop := 4
  , color := userRegionColor
  , drag := true
  , resize := true
  , content := "片段" }

/-- A state holding one user region which is also the active region. -/
def remSt : EditorState :=
  { stEmpty with
      regions := [regA]
    , userRegions := updateUserRegionsList [regA]
    , activeRegionId := some "a" }

/-- Witness for removeRegion_silent_noop: removing an absent id from a
concrete state changes nothing. -/
theorem removeRegion_silent_noop_witness :
    remSt.regions.find? (fun r => r.id == "z") = none
    ∧ (removeRegion remSt "z").activeRegionId = remSt.activeRegionId
    ∧ (removeRegion remSt "z").regions = remSt.regions :=
  ⟨by decide, (removeRegion_silent_noop remSt "z").1,
    (removeRegion_silent_noop remSt "z").2.2 (by decide)⟩

/-- Claim C7 counterexample: removing the region that is active.  The
claim says activeRegionId is cleared; the code removes the region but
leaves activeRegionId pointing at the removed id. -/
theorem removeRegion_active_not_cleared_cex :
    (removeRegion remSt "a").regions = []
    ∧ remSt.activeRegionId = some "a"
    ∧ (removeRegion remSt "a").activeRegionId = some "a" :=
  ⟨by decide, by decide, by decide⟩

/-- The JS falsy test on process.env.API_KEY: unset or the empty string. -/
def envFalsy : Option String → Bool
  | none => true
  | some s => s == ""

/-- The synchronous guard prefix of handleTranscribe: return unchanged when
no API key is configured or a call is already in flight; otherwise set the
in-flight flag and start one generateContent call (counted by
callsIssued). -/
def handleTranscribeStart (apiKey : Option String) (st : EditorState) : EditorState :=
  if envFalsy apiKey || st.isTranscribing then st
  else { st with isTranscribing := true, callsIssued := st.callsIssued + 1 }

/-- The ready handler: mark the session ready, record the duration, then
trigger transcription only when the enableTranscription prop is on. -/
def onReady (apiKey : Option String) (enableTranscription : Bool) (dur : ℚ)
    (st : EditorState) : EditorState :=
  let st := { st with isReady := true, duration := dur }
  if enableTranscription then handleTranscribeStart apiKey st else st

/-- Claim C8: at most one transcription call is in flight per session: in
every state whose in-flight flag is set, triggering transcription again
returns the state unchanged - no second call is issued (callsIssued is
part of the state) and nothing else changes. -/
theorem transcribe_inflight_noop (apiKey : Option String) (st : EditorState)
    (h : st.isTranscribing = true) :
    handleTranscribeStart apiKey st = st := by
  rw [handleTranscribeStart, if_pos (by rw [h]; simp)]

/-- A state with the in-flight flag set. -/
def busySt : EditorState := { stEmpty with isTranscribing := true }

/-- Witness for transcribe_inflight_noop on a concrete busy state. -/
theorem transcribe_inflight_noop_witness :
    busySt.isTranscribing = true
    ∧ handleTranscribeStart (some "k") busySt = busySt :=
  ⟨by decide, transcribe_inflight_noop (some "k") busySt (by decide)⟩

/-- Claim C10: with no API key configured, triggering transcription -
directly or through the automatic decode-ready trigger - is a complete
no-op: the guard returns at once, no generateContent call starts, the
in-flight flag is never set, the transcript state is untouched and no
error is surfaced (the function just returns). -/
theorem transcribe_no_api_key_noop (st : EditorState) (en : Bool) (dur : ℚ)
    (apiKey : Option String) (h : apiKey = none) :
    handleTranscribeStart apiKey st = st
    ∧ (onReady apiKey en dur st).isTranscribing = st.isTranscribing
    ∧ (onReady apiKey en dur st).callsIssued = st.callsIssued
    ∧ (onReady apiKey en dur st).transcriptSegments = st.transcriptSegments := by
  subst h
  have hts : ∀ s : EditorState, handleTranscribeStart none s = s := by
    intro s
    simp [handleTranscribeStart, envFalsy]
  have hon : onReady none en dur st = { st with isReady := true, duration := dur } := by
    cases en <;> simp [onReady, hts]
  exact ⟨hts st, by rw [hon], by rw [hon], by rw [hon]⟩

/-- Witness for transcribe_no_api_key_noop: the no-key no-op on the
initial state, with the ready trigger enabled. -/
theorem transcribe_no_api_key_noop_witness :
    (none : Option String) = none
    ∧ (handleTranscribeStart none stEmpty = stEmpty
      ∧ (onReady none true 10 stEmpty).isTranscribing = stEmpty.isTranscribing
      ∧ (onReady none true 10 stEmpty).callsIssued = stEmpty.callsIssued
      ∧ (onReady none true 10 stEmpty).transcriptSegments = stEmpty.transcriptSegments) :=
  ⟨rfl, transcribe_no_api_key_noop stEmpty true 10 none rfl⟩

/-- Claim C9: the add-region control takes no bounds: it always appends a
region running from the current playback position to five seconds later,
with drag and resize enabled, even when that end exceeds the source
duration; since its id is outside the transcript namespace, the
region-created handler counts it as a user region and marks it active. -/
theorem addRegion_fixed_five_second_region (st : EditorState) (freshId : String)
    (hid : isTranscriptId freshId = false)
    (_hover : st.duration < st.currentTime + 5) :
    (addRegion st freshId).regions
      = st.regions ++
        [{ id := freshId
         , start := st.currentTime
         , stop := st.currentTime + 5
         , color := userRegionColor
         , drag := true
         , resize := true
         , content := "片段" }]
    ∧ (addRegion st freshId).activeRegionId = some freshId := by
  simp only [addRegion]
  rw [if_neg (by simp [hid])]
  exact ⟨rfl, rfl⟩

/-- A ready state whose source lasts 3 seconds, shorter than the 5-second
default region length. -/
def shortSt : EditorState := { stEmpty with duration := 3 }

/-- Witness for addRegion_fixed_five_second_region: adding at time 0 of a
3-second source still produces the region (0, 5). -/
theorem addRegion_fixed_five_second_region_witness :
    (isTranscriptId "wavesurfer-r1" = false
      ∧ shortSt.duration < shortSt.currentTime + 5)
    ∧ ((addRegion shortSt "wavesurfer-r1").regions
        = shortSt.regions ++
          [{ id := "wavesurfer-r1"
           , start := shortSt.currentTime
           , stop := shortSt.currentTime + 5
           , color := userRegionColor
           , drag := true
           , resize := true
           , content := "片段" }]
      ∧ (addRegion shortSt "wavesurfer-r1").activeRegionId = some "wavesurfer-r1") :=
  ⟨⟨by decide, by decide⟩,
    addRegion_fixed_five_second_region shortSt "wavesurfer-r1" (by decide) (by decide)⟩

/-- Modelled from the spec: the sample conversion of the WAV encoder
(audioBufferToWav in utils/audioUtils.ts, imported by the editor but not
part of the repository snapshot).  A float sample is clamped to [-1, 1]
and scaled to a signed 16-bit integer; a NaN cell converts to 0. -/
def clamp16 : Sample → ℤ
  | Sample.nan => 0
  | Sample.val x => Rat.floor ((max (-1 : ℚ) (min 1 x)) * 32767)

/-- Two little-endian bytes of a 16-bit value. -/
def u16Bytes (n : ℕ) : List ℕ := [n % 256, n / 256 % 256]

/-- Four little-endian bytes of a 32-bit value. -/
def u32Bytes (n : ℕ) : List ℕ :=
  [n % 256, n / 256 % 256, n / 65536 % 256, n / 16777216 % 256]

/-- A signed 16-bit sample as two little-endian bytes. -/
def i16le (v : ℤ) : List ℕ := u16Bytes (v % 65536).toNat

/-- Modelled from the spec: one frame of the interleaved payload - the
sample of every channel at index j, channel-minor. -/
def frameBytes : List (List Sample) → ℕ → List ℕ
  | [], _ => []
  | d :: rest, j => i16le (clamp16 (d.getD j Sample.nan)) ++ frameBytes rest j

/-- The payload loop: frames j, j+1, ... for the given count, frame-major. -/
def wavDataAux (channels : List (List Sample)) : ℕ → ℕ → List ℕ
  | _, 0 => []
  | j, Nat.succ n => frameBytes channels j ++ wavDataAux channels (j + 1) n

/-- Modelled from the spec: the interleaved 16-bit sample data of the WAV
container, frame-major and channel-minor. -/
def wavData (b : AudioBuffer) : List ℕ := wavDataAux b.channels 0 b.length

/-- Modelled from the spec: the canonical fixed-size (44-byte) PCM WAV
header - RIFF and WAVE tags, the fmt chunk declaring format 1, channel
count, sample rate, byte rate, block alignment and 16 bits per sample, and
the data chunk tag with the payload size. -/
def wavHeader (numChannels len sampleRate : ℕ) : List ℕ :=
  let dataSize := len * numChannels * 2
  let byteRate := sampleRate * numChannels * 2
  let blockAlign := numChannels * 2
  [82, 73, 70, 70] ++ u32Bytes (36 + dataSize)
    ++ [87, 65, 86, 69]
    ++ [102, 109, 116, 32] ++ u32Bytes 16
    ++ u16Bytes 1 ++ u16Bytes numChannels ++ u32Bytes sampleRate
    ++ u32Bytes byteRate ++ u16Bytes blockAlign ++ u16Bytes 16
    ++ [100, 97, 116, 97] ++ u32Bytes dataSize

/-- Modelled from the spec: audioBufferToWav of utils/audioUtils.ts, which
the editor imports but whose source is not in the repository snapshot: the
header followed by the interleaved sample data. -/
def audioBufferToWav (b : AudioBuffer) : List ℕ :=
  wavHeader b.channels.length b.length b.sampleRate ++ wavData b

theorem i16le_length (v : ℤ) : (i16le v).length = 2 := rfl

theorem frameBytes_length : ∀ (chs : List (List Sample)) (j : ℕ),
    (frameBytes chs j).length = chs.length * 2
  | [], _ => rfl
  | d :: rest, j => by
    rw [frameBytes, List.length_append, frameBytes_length rest j, i16le_length,
      List.length_cons]
    omega

theorem wavDataAux_length (chs : List (List Sample)) :
    ∀ (j n : ℕ), (wavDataAux chs j n).length = n * (chs.length * 2)
  | j, 0 => by
    rw [Nat.zero_mul]
    rfl
  | j, Nat.succ n => by
    rw [wavDataAux, List.length_append, frameBytes_length,
      wavDataAux_length chs (j + 1) n, Nat.succ_eq_add_one]
    ring

theorem wavHeader_length (numChannels len sampleRate : ℕ) :
    (wavHeader numChannels len sampleRate).length = 44 := rfl

/-- Claim C5: the WAV encoder is a deterministic pure function of the
samples, sample rate and channel count, emitting a fixed 44-byte header
followed by interleaved 16-bit data of exactly frameCount * channelCount
* 2 bytes; composed with the slicer, exporting a region yields
44 + (endFrame - startFrame) * channelCount * 2 bytes in total - for the
region (2, 5) of a 44100 Hz source that data payload is
3 * 44100 * channelCount * 2 bytes. -/
theorem wav_encode_size (src : AudioBuffer) (a b : ℚ) (nb : AudioBuffer)
    (h : sliceBuffer src a b = some nb) :
    (audioBufferToWav nb).length
      = 44 + (Rat.floor (b * (src.sampleRate : ℚ))
          - Rat.floor (a * (src.sampleRate : ℚ))).toNat * src.channels.length * 2 := by
  simp only [sliceBuffer] at h
  split at h
  · exact absurd h (by simp)
  · rw [← Option.some.inj h]
    rw [audioBufferToWav, wavData, List.length_append, wavHeader_length,
      wavDataAux_length]
    rw [List.length_map]
    ring

/-- The buffer the slicer produces for the range (0, 1) over wsrc. -/
def wnb : AudioBuffer :=
  { sampleRate := 2, length := 2, channels := [[Sample.val 0, Sample.val (1/4)]] }

/-- Witness for wav_encode_size: the encoded slice (0, 1) of the concrete
2 Hz source is 44 header bytes plus 2 frames of one channel, 2 bytes
each. -/
theorem wav_encode_size_witness :
    sliceBuffer wsrc 0 1 = some wnb
    ∧ (audioBufferToWav wnb).length
      = 44 + (Rat.floor ((1 : ℚ) * (wsrc.sampleRate : ℚ))
          - Rat.floor ((0 : ℚ) * (wsrc.sampleRate : ℚ))).toNat * wsrc.channels.length * 2 :=
  ⟨by decide, wav_encode_size wsrc 0 1 wnb (by decide)⟩
